import Mathlib

/-!
Verification of the adversarial-training core of `at_fast_fgsm.py`
(fast-FGSM adversarial training plus a multi-restart PGD evaluation attack).

Tensors are embedded as rational-valued functions over an index type:
a training-batch image tensor is `ι → ℚ` (flattened elements), a batched
tensor in the PGD attack is `Fin N → ι → ℚ` (sample index, then element
index).  Per-channel epsilon / step-size tensors (nominal value divided by
the per-channel std) broadcast elementwise, so they are embedded as
per-element functions `ι → ℚ`.  The classifier, its cross-entropy loss and
the autograd gradient are external capabilities and enter as oracle
parameters; the uniform random initialisation of `delta` enters as an
explicit parameter constrained by the hypothesis that every element lies
in `[-eps, eps]`, which is exactly what `uniform_(-eps, eps)` guarantees.
-/

namespace FastAT

/-- Source `clamp(X, lower_limit, upper_limit) = torch.max(torch.min(X, upper_limit), lower_limit)`
(at_fast_fgsm.py line 20-21), one element. -/
def clamp (X lower_limit upper_limit : ℚ) : ℚ :=
  max (min X upper_limit) lower_limit

/-- torch's built-in `Tensor.clamp_(lo, hi)`: clamps into `[lo, hi]`,
computed as `min (max v lo) hi`, one element. -/
def tclamp (v lo hi : ℚ) : ℚ :=
  min (max v lo) hi

/-- torch.sign, one element. -/
def sign (q : ℚ) : ℚ :=
  if 0 < q then 1 else if q < 0 then -1 else 0

/-! ### Single-step attack inlined in `train_epoch` (lines 51-63)

`x` is the clean batch (flattened), `δ0` the uniform random draw,
`gradO` the autograd oracle returning the gradient of the cross-entropy
loss with respect to `delta` as a function of the perturbed input `x + delta`. -/

/-- Line 53: `delta = clamp(delta, utils.clip_min - x, utils.clip_max - x)` —
the initial random-init projection, which clamps only to the pixel box. -/
def train_init_delta {ι : Type} (x : ι → ℚ) (cmin cmax : ℚ) (δ0 : ι → ℚ) : ι → ℚ :=
  fun i => clamp (δ0 i) (cmin - x i) (cmax - x i)

/-- Lines 51-63 of `train_epoch`: random init (the draw `δ0`), projection to
the pixel box, one gradient-sign step clamped into `[-eps, eps]`
(line 62: `(delta + torch.sign(grad_delta) * eps_iter).clamp_(-eps, eps)`),
and re-projection to the pixel box (line 63).  Returns the final `delta`. -/
def train_epoch_delta {ι : Type} (x : ι → ℚ) (eps eps_iter : ι → ℚ) (cmin cmax : ℚ)
    (δ0 : ι → ℚ) (gradO : (ι → ℚ) → ι → ℚ) : ι → ℚ :=
  let d1 := train_init_delta x cmin cmax δ0
  let g := gradO (fun i => x i + d1 i)
  fun i =>
    clamp (tclamp (d1 i + sign (g i) * eps_iter i) (-(eps i)) (eps i))
      (cmin - x i) (cmax - x i)

/-! ### Multi-step attack `attack_pgd` (lines 83-125) -/

/-- Oracles and batch data consumed by `attack_pgd`.  `pred u k` is
`argmax(model(u, relu), dim=1)` for sample `k`; `lossPS u` is the
per-sample cross-entropy `F.cross_entropy(model(u, relu), y, reduction='none')`;
`gradL u` is the autograd gradient of the batch cross-entropy with respect
to `delta`, read off `delta.grad` after `loss.backward()`.  All three take
the perturbed input `x + delta`. -/
structure PGDEnv (N : ℕ) (ι : Type) where
  pred : (Fin N → ι → ℚ) → Fin N → ℕ
  lossPS : (Fin N → ι → ℚ) → Fin N → ℚ
  gradL : (Fin N → ι → ℚ) → Fin N → ι → ℚ
  x : Fin N → ι → ℚ
  y : Fin N → ℕ
  eps : ι → ℚ
  eps_iter : ι → ℚ
  clip_min : ℚ
  clip_max : ℚ

variable {N : ℕ} {ι : Type}

/-- The model input `x + delta`. -/
def perturbed (E : PGDEnv N ι) (δ : Fin N → ι → ℚ) : Fin N → ι → ℚ :=
  fun k i => E.x k i + δ k i

/-- Lines 115-116: the update applied to one active sample `k`:
`(delta[index] + eps_iter * torch.sign(grad[index])).clamp_(-eps, eps)`
followed by `clamp(delta_, utils.clip_min - x[index], utils.clip_max - x[index])`. -/
def pgdUpdate (E : PGDEnv N ι) (δ g : Fin N → ι → ℚ) (k : Fin N) (i : ι) : ℚ :=
  clamp (tclamp (δ k i + E.eps_iter i * sign (g k i)) (-(E.eps i)) (E.eps i))
    (E.clip_min - E.x k i) (E.clip_max - E.x k i)

/-- Lines 113-119: the delta produced by one non-breaking loop iteration.
`index = torch.where(logits.argmax(dim=1) == y)` selects the samples still
classified correctly; only their entries are written back
(`delta.data[index] = delta_`), the rest keep their current value. -/
def pgdNext (E : PGDEnv N ι) (δ : Fin N → ι → ℚ) : Fin N → ι → ℚ :=
  fun k i =>
    if E.pred (perturbed E δ) k = E.y k then
      pgdUpdate E δ (E.gradL (perturbed E δ)) k i
    else δ k i

/-- Lines 104-120, one iteration of the inner loop: compute the logits on
`x + delta`, break (`none`) when `len(index[0]) == 0`, i.e. when no sample
is still classified correctly, otherwise perform the masked update. -/
def pgdIter (E : PGDEnv N ι) (δ : Fin N → ι → ℚ) : Option (Fin N → ι → ℚ) :=
  if ∀ k, E.pred (perturbed E δ) k ≠ E.y k then none
  else some (pgdNext E δ)

/-- Line 104: `for _ in range(attack_iters)`, with the early `break`. -/
def pgdLoop (E : PGDEnv N ι) : ℕ → (Fin N → ι → ℚ) → (Fin N → ι → ℚ)
  | 0, δ => δ
  | n + 1, δ =>
    match pgdIter E δ with
    | none => δ
    | some δ1 => pgdLoop E n δ1

/-- Lines 100-101: per-restart initialisation — the uniform draw `d`,
projected only into the pixel box:
`delta.data = clamp(delta, utils.clip_min - x, utils.clip_max - x)`. -/
def initProjPGD (E : PGDEnv N ι) (d : Fin N → ι → ℚ) : Fin N → ι → ℚ :=
  fun k i => clamp (d k i) (E.clip_min - E.x k i) (E.clip_max - E.x k i)

/-- The delta a restart ends with: the projected init run through the
iteration loop. -/
def restartFinalDelta (E : PGDEnv N ι) (attack_iters : ℕ) (d : Fin N → ι → ℚ) :
    Fin N → ι → ℚ :=
  pgdLoop E attack_iters (initProjPGD E d)

/-- Line 122: `all_loss = F.cross_entropy(model(x + delta, F.relu), y, reduction='none')`
at the end of a restart. -/
def restartFinalLoss (E : PGDEnv N ι) (attack_iters : ℕ) (d : Fin N → ι → ℚ) :
    Fin N → ℚ :=
  E.lossPS (perturbed E (restartFinalDelta E attack_iters d))

/-- The worst-case bookkeeping of `attack_pgd`: `max_loss` (line 96,
`torch.zeros_like(y).float()`) and `max_delta` (line 97, `torch.zeros_like(x)`). -/
structure AttackState (N : ℕ) (ι : Type) where
  max_loss : Fin N → ℚ
  max_delta : Fin N → ι → ℚ

/-- Lines 100-124, one restart: run the iteration loop from a fresh
projected init, then (lines 123-124)
`max_delta[all_loss >= max_loss] = delta.detach()[all_loss >= max_loss]` and
`max_loss = torch.max(max_loss, all_loss)`. -/
def restartStep (E : PGDEnv N ι) (attack_iters : ℕ) (d : Fin N → ι → ℚ)
    (s : AttackState N ι) : AttackState N ι :=
  let δ := restartFinalDelta E attack_iters d
  let all_loss := E.lossPS (perturbed E δ)
  { max_loss := fun k => max (s.max_loss k) (all_loss k)
    max_delta := fun k => if s.max_loss k ≤ all_loss k then δ k else s.max_delta k }

/-- Lines 96-124: `for i in range(restarts)` over the restart bodies,
starting from the all-zero state.  `inits r` is the uniform draw of
restart `r`. -/
def runRestarts (E : PGDEnv N ι) (attack_iters restarts : ℕ)
    (inits : ℕ → Fin N → ι → ℚ) : AttackState N ι :=
  (List.range restarts).foldl (fun s r => restartStep E attack_iters (inits r) s)
    ⟨fun _ => 0, fun _ _ => 0⟩

/-- Failure of the precondition check on line 95. -/
inductive AttackError where
  | deviceMismatch
deriving DecidableEq

/-- Lines 83-125, `attack_pgd`: the device assertion (line 95,
`assert x.device == y.device`) guards everything; on success the restarts
run and `max_delta` is returned (line 125).  `xdev`/`ydev` are the device
tags of `x` and `y`. -/
def attack_pgd (E : PGDEnv N ι) (xdev ydev : ℕ) (attack_iters restarts : ℕ)
    (inits : ℕ → Fin N → ι → ℚ) : Except AttackError (Fin N → ι → ℚ) :=
  if xdev = ydev then
    Except.ok (runRestarts E attack_iters restarts inits).max_delta
  else Except.error AttackError.deviceMismatch

/-! ### Gradient-buffer semantics of the two differentiation queries

Autograd is embedded by its effect on the `.grad` buffers.  A scalar loss
node is represented by the gradients it would propagate: `dParam` to the
model parameters (index type `P`), `dDelta` to the perturbation leaf.
Per torch semantics, `torch.autograd.grad(loss, delta)` (train_epoch
line 59) returns the gradient with respect to `delta` only and populates
no `.grad` buffer, while `loss.backward()` (attack_pgd line 111)
accumulates the loss gradient into the `.grad` buffer of every leaf
requiring grad — the model parameters included. -/

/-- A scalar loss value together with its gradients with respect to the
model parameters and with respect to `delta`. -/
structure LossNode (P ι : Type) where
  dParam : P → ℚ
  dDelta : ι → ℚ

/-- The `.grad` buffers: one per model parameter, plus `delta.grad`. -/
structure GradState (P ι : Type) where
  paramGrad : P → ℚ
  deltaGrad : ι → ℚ

variable {P : Type}

/-- `torch.autograd.grad(loss, delta)[0]` (train_epoch line 59): returns
the input gradient; no `.grad` buffer is touched. -/
def autograd_grad (L : LossNode P ι) (s : GradState P ι) :
    (ι → ℚ) × GradState P ι :=
  (L.dDelta, s)

/-- `loss.backward()` (attack_pgd line 111): accumulate the gradients into
every leaf's `.grad` buffer — parameters and `delta` alike. -/
def backward (L : LossNode P ι) (s : GradState P ι) : GradState P ι :=
  { paramGrad := fun p => s.paramGrad p + L.dParam p
    deltaGrad := fun i => s.deltaGrad i + L.dDelta i }

/-- `optimizer.zero_grad()` (train_epoch line 55): reset the parameter
gradients; `delta` is not an optimizer parameter. -/
def zero_grad (s : GradState P ι) : GradState P ι :=
  { s with paramGrad := fun _ => 0 }

/-- `delta.grad.zero_()` (attack_pgd line 120). -/
def delta_grad_zero (s : GradState P ι) : GradState P ι :=
  { s with deltaGrad := fun _ => 0 }

/-- `scaler.scale(loss)` (train_epoch line 69): multiplying the loss by the
scale factor `c` scales every gradient it propagates. -/
def scaleNode (c : ℚ) (L : LossNode P ι) : LossNode P ι :=
  ⟨fun p => c * L.dParam p, fun i => c * L.dDelta i⟩

/-- Gradient-buffer flow of one training batch (train_epoch lines 55-69):
`optimizer.zero_grad()`; `torch.autograd.grad(loss1, delta)`;
`scaler.scale(loss2).backward()`.  Returns the final buffers and the input
gradient obtained for the single-step attack. -/
def train_batch_grad_flow (c : ℚ) (L1 L2 : LossNode P ι) (s0 : GradState P ι) :
    GradState P ι × (ι → ℚ) :=
  let s1 := zero_grad s0
  let gs2 := autograd_grad L1 s1
  let s3 := backward (scaleNode c L2) gs2.2
  (s3, gs2.1)

/-- Gradient-buffer flow of one PGD iteration (attack_pgd lines 110-120):
`loss.backward()`; `grad = delta.grad.detach()`; ...; `delta.grad.zero_()`.
Returns the final buffers and the input gradient the update used. -/
def pgd_iter_grad_flow (L : LossNode P ι) (s : GradState P ι) :
    GradState P ι × (ι → ℚ) :=
  let s1 := backward L s
  let g := s1.deltaGrad
  let s2 := delta_grad_zero s1
  (s2, g)

/-! ### Event skeleton of the configuration-expression evaluations

`eval(args.epsilon)` and companions are executed inside `train_epoch`
(lines 41-42) and `eval_epoch` (lines 130-131), at every call, before that
call's batch loop; `run` (lines 203-213, training branch) calls
`train_epoch` once per epoch and then `eval_epoch` twice.  The skeleton
records every expression evaluation and every processed batch in program
order. -/

/-- One observable event: a `eval(<expression string>)` call, or the
processing of one batch. -/
inductive RunEvent where
  | exprEval (s : String)
  | processBatch
deriving DecidableEq, BEq

/-- Events of one `train_epoch` call (lines 41-42 then the loop at 48):
evaluate `args.epsilon`, evaluate `args.epsilon_iter`, then process the
batches. -/
def train_epoch_events (epsilonS epsilonIterS : String) (nBatches : ℕ) :
    List RunEvent :=
  [RunEvent.exprEval epsilonS, RunEvent.exprEval epsilonIterS] ++
    List.replicate nBatches RunEvent.processBatch

/-- Events of one `eval_epoch` call (lines 130-131 then the loop at 138):
evaluate `args.epsilon`, evaluate `args.pgd_epsilon_iter`, then process the
batches. -/
def eval_epoch_events (epsilonS pgdEpsilonIterS : String) (nBatches : ℕ) :
    List RunEvent :=
  [RunEvent.exprEval epsilonS, RunEvent.exprEval pgdEpsilonIterS] ++
    List.replicate nBatches RunEvent.processBatch

/-- Events of the epoch loop of `run` (line 203): `nEpochs` successive
`train_epoch` calls. -/
def epochs_events (epsilonS epsilonIterS : String) (nTrainBatches : ℕ) :
    ℕ → List RunEvent
  | 0 => []
  | n + 1 =>
    train_epoch_events epsilonS epsilonIterS nTrainBatches ++
      epochs_events epsilonS epsilonIterS nTrainBatches n

/-- Events of the training branch of `run` (lines 203-213): the epoch loop,
then `eval_epoch` twice (clean, adversarial).  The hydra configuration load
that precedes all of this never evaluates the expressions. -/
def run_events (epsilonS epsilonIterS pgdEpsilonIterS : String)
    (nEpochs nTrainBatches nTestBatches : ℕ) : List RunEvent :=
  epochs_events epsilonS epsilonIterS nTrainBatches nEpochs ++
    eval_epoch_events epsilonS pgdEpsilonIterS nTestBatches ++
    eval_epoch_events epsilonS pgdEpsilonIterS nTestBatches

/-- Number of times the expression `s` is evaluated in an event list. -/
def countEvalOf (s : String) (l : List RunEvent) : ℕ :=
  l.countP (fun e => decide (e = RunEvent.exprEval s))

/-! ### Invariant predicates and concrete instances used by the witnesses -/

/-- Elementwise box invariant for a flat perturbation: inside the
L-infinity ball and the perturbed image inside the pixel box. -/
def boxOK (eps : ι → ℚ) (cmin cmax : ℚ) (x δ : ι → ℚ) : Prop :=
  ∀ i, -(eps i) ≤ δ i ∧ δ i ≤ eps i ∧ cmin ≤ x i + δ i ∧ x i + δ i ≤ cmax

/-- The box invariant for every sample of a PGD batch. -/
def boxOKBatch (E : PGDEnv N ι) (δ : Fin N → ι → ℚ) : Prop :=
  ∀ k, boxOK E.eps E.clip_min E.clip_max (E.x k) (δ k)

/-- A concrete one-sample environment: the constant predictor 0 on label 0
(so the sample stays active), unit budget and step, pixel box `[-1, 1]`. -/
def wEnv : PGDEnv 1 (Fin 1) :=
  { pred := fun _ _ => 0, lossPS := fun _ _ => 0, gradL := fun _ _ _ => 1
    x := fun _ _ => 0, y := fun _ => 0, eps := fun _ => 1, eps_iter := fun _ => 1
    clip_min := -1, clip_max := 1 }

/-- Like `wEnv` but the sample is misclassified from the start. -/
def wEnvMiss : PGDEnv 1 (Fin 1) :=
  { wEnv with y := fun _ => 1 }

/-- A two-sample environment: sample 0 is classified correctly (active),
sample 1 is not (inactive). -/
def wEnvMix : PGDEnv 2 (Fin 1) :=
  { pred := fun _ _ => 0, lossPS := fun _ _ => 0, gradL := fun _ _ _ => 1
    x := fun _ _ => 0, y := fun k => if k = 0 then 0 else 1
    eps := fun _ => 1, eps_iter := fun _ => 1, clip_min := -1, clip_max := 1 }

/-- Like `wEnv` but with a zero perturbation budget. -/
def wEnv0 : PGDEnv 1 (Fin 1) :=
  { wEnv with eps := fun _ => 0 }

/-- A concrete family of uniform draws (constant 1, inside `[-1, 1]`). -/
def wInit : ℕ → Fin 1 → Fin 1 → ℚ := fun _ _ _ => 1

/-- A concrete family of uniform draws for the zero-budget environment. -/
def wInit0 : ℕ → Fin 1 → Fin 1 → ℚ := fun _ _ _ => 0

/-! ### Core clamp lemmas -/

/-- Projecting a value of the L-infinity ball into the pixel box keeps it
in the ball and lands the perturbed pixel in the box. -/
lemma clamp_box_ok (d e xv cmin cmax : ℚ) (he : 0 ≤ e) (hx1 : cmin ≤ xv)
    (hx2 : xv ≤ cmax) (hd1 : -e ≤ d) (hd2 : d ≤ e) :
    -e ≤ clamp d (cmin - xv) (cmax - xv) ∧ clamp d (cmin - xv) (cmax - xv) ≤ e ∧
      cmin ≤ xv + clamp d (cmin - xv) (cmax - xv) ∧
      xv + clamp d (cmin - xv) (cmax - xv) ≤ cmax := by
  simp only [clamp]
  have h1 : -e ≤ max (min d (cmax - xv)) (cmin - xv) :=
    le_max_of_le_left (le_min hd1 (by linarith))
  have h2 : max (min d (cmax - xv)) (cmin - xv) ≤ e :=
    max_le (le_trans (min_le_left _ _) hd2) (by linarith)
  have h3 : cmin - xv ≤ max (min d (cmax - xv)) (cmin - xv) := le_max_right _ _
  have h4 : max (min d (cmax - xv)) (cmin - xv) ≤ cmax - xv :=
    max_le (min_le_right _ _) (by linarith)
  exact ⟨h1, h2, by linarith, by linarith⟩

/-- torch's `clamp_(lo, hi)` lands in `[lo, hi]` whenever `lo ≤ hi`. -/
lemma tclamp_mem (v lo hi : ℚ) (h : lo ≤ hi) :
    lo ≤ tclamp v lo hi ∧ tclamp v lo hi ≤ hi := by
  simp only [tclamp]
  exact ⟨le_min (le_max_right _ _) h, min_le_right _ _⟩

/-- The composite update `clamp (tclamp v (-e) e) (cmin - xv) (cmax - xv)`
satisfies the full box invariant, for any incoming value `v`. -/
lemma update_box_ok (v e xv cmin cmax : ℚ) (he : 0 ≤ e) (hx1 : cmin ≤ xv)
    (hx2 : xv ≤ cmax) :
    -e ≤ clamp (tclamp v (-e) e) (cmin - xv) (cmax - xv) ∧
      clamp (tclamp v (-e) e) (cmin - xv) (cmax - xv) ≤ e ∧
      cmin ≤ xv + clamp (tclamp v (-e) e) (cmin - xv) (cmax - xv) ∧
      xv + clamp (tclamp v (-e) e) (cmin - xv) (cmax - xv) ≤ cmax := by
  obtain ⟨t1, t2⟩ := tclamp_mem v (-e) e (by linarith)
  exact clamp_box_ok _ e xv cmin cmax he hx1 hx2 t1 t2

/-! ### Box-invariant lemmas for the two attacks -/

/-- The initial random-init projection of the training attack satisfies
the full box invariant. -/
lemma train_init_box (x eps : ι → ℚ) (cmin cmax : ℚ) (δ0 : ι → ℚ)
    (heps : ∀ i, 0 ≤ eps i) (hx : ∀ i, cmin ≤ x i ∧ x i ≤ cmax)
    (hδ0 : ∀ i, -(eps i) ≤ δ0 i ∧ δ0 i ≤ eps i) :
    boxOK eps cmin cmax x (train_init_delta x cmin cmax δ0) := by
  intro i
  exact clamp_box_ok (δ0 i) (eps i) (x i) cmin cmax (heps i) (hx i).1 (hx i).2
    (hδ0 i).1 (hδ0 i).2

/-- The delta returned by the single-step attack satisfies the full box
invariant. -/
lemma train_epoch_delta_box (x eps eps_iter : ι → ℚ) (cmin cmax : ℚ)
    (δ0 : ι → ℚ) (gradO : (ι → ℚ) → ι → ℚ)
    (heps : ∀ i, 0 ≤ eps i) (hx : ∀ i, cmin ≤ x i ∧ x i ≤ cmax) :
    boxOK eps cmin cmax x (train_epoch_delta x eps eps_iter cmin cmax δ0 gradO) := by
  intro i
  simp only [train_epoch_delta]
  exact update_box_ok _ (eps i) (x i) cmin cmax (heps i) (hx i).1 (hx i).2

/-- The per-restart init projection of `attack_pgd` satisfies the full box
invariant. -/
lemma pgd_init_box (E : PGDEnv N ι) (d : Fin N → ι → ℚ)
    (heps : ∀ i, 0 ≤ E.eps i)
    (hx : ∀ k i, E.clip_min ≤ E.x k i ∧ E.x k i ≤ E.clip_max)
    (hd : ∀ k i, -(E.eps i) ≤ d k i ∧ d k i ≤ E.eps i) :
    boxOKBatch E (initProjPGD E d) := by
  intro k i
  exact clamp_box_ok (d k i) (E.eps i) (E.x k i) E.clip_min E.clip_max (heps i)
    (hx k i).1 (hx k i).2 (hd k i).1 (hd k i).2

/-- One non-breaking PGD iteration preserves the box invariant: updated
entries land in the box by the projection, frozen entries stay where they
were. -/
lemma pgdIter_box (E : PGDEnv N ι) (δ δ1 : Fin N → ι → ℚ)
    (heps : ∀ i, 0 ≤ E.eps i)
    (hx : ∀ k i, E.clip_min ≤ E.x k i ∧ E.x k i ≤ E.clip_max)
    (hδ : boxOKBatch E δ) (hsome : pgdIter E δ = some δ1) :
    boxOKBatch E δ1 := by
  unfold pgdIter at hsome
  split at hsome
  · exact absurd hsome (by simp)
  · cases hsome
    intro k i
    simp only [pgdNext]
    split
    · simp only [pgdUpdate]
      exact update_box_ok _ (E.eps i) (E.x k i) E.clip_min E.clip_max (heps i)
        (hx k i).1 (hx k i).2
    · exact hδ k i

/-- The whole PGD iteration loop preserves the box invariant. -/
lemma pgdLoop_box (E : PGDEnv N ι)
    (heps : ∀ i, 0 ≤ E.eps i)
    (hx : ∀ k i, E.clip_min ≤ E.x k i ∧ E.x k i ≤ E.clip_max) :
    ∀ (n : ℕ) (δ : Fin N → ι → ℚ), boxOKBatch E δ → boxOKBatch E (pgdLoop E n δ)
  | 0, δ, hδ => hδ
  | n + 1, δ, hδ => by
    simp only [pgdLoop]
    cases h : pgdIter E δ with
    | none => exact hδ
    | some δ1 => exact pgdLoop_box E heps hx n δ1 (pgdIter_box E δ δ1 heps hx hδ h)

/-- C1: For every batch and for both attacks (the single-step attack
inlined in `train_epoch` and the multi-step attack `attack_pgd`), after
each projection step the perturbation `delta` satisfies, elementwise,
`-eps ≤ delta ≤ eps` and `clip_min ≤ x + delta ≤ clip_max` (for `x` in the
valid pixel box), including after the initial random-init projection which
clamps only to the pixel box. -/
theorem C1_box_invariant
    (x eps eps_iter : ι → ℚ) (cmin cmax : ℚ) (δ0 : ι → ℚ)
    (gradO : (ι → ℚ) → ι → ℚ)
    (heps : ∀ i, 0 ≤ eps i) (hx : ∀ i, cmin ≤ x i ∧ x i ≤ cmax)
    (hδ0 : ∀ i, -(eps i) ≤ δ0 i ∧ δ0 i ≤ eps i)
    {κ : Type} (E : PGDEnv N κ) (d : Fin N → κ → ℚ)
    (hE : ∀ i, 0 ≤ E.eps i)
    (hEx : ∀ k i, E.clip_min ≤ E.x k i ∧ E.x k i ≤ E.clip_max)
    (hd : ∀ k i, -(E.eps i) ≤ d k i ∧ d k i ≤ E.eps i) :
    boxOK eps cmin cmax x (train_init_delta x cmin cmax δ0) ∧
      boxOK eps cmin cmax x (train_epoch_delta x eps eps_iter cmin cmax δ0 gradO) ∧
      boxOKBatch E (initProjPGD E d) ∧
      (∀ δ δ1, boxOKBatch E δ → pgdIter E δ = some δ1 → boxOKBatch E δ1) ∧
      (∀ n, boxOKBatch E (pgdLoop E n (initProjPGD E d))) := by
  refine ⟨train_init_box x eps cmin cmax δ0 heps hx hδ0,
    train_epoch_delta_box x eps eps_iter cmin cmax δ0 gradO heps hx,
    pgd_init_box E d hE hEx hd,
    fun δ δ1 hδ hsome => pgdIter_box E δ δ1 hE hEx hδ hsome,
    fun n => pgdLoop_box E hE hEx n _ (pgd_init_box E d hE hEx hd)⟩

/-- Witness for C1 at a concrete instance: one pixel, `x = 0`, `eps = 1`,
pixel box `[-1, 1]`, uniform draw `1`. -/
theorem C1_box_invariant_witness :
    (∀ i : Fin 1, (0:ℚ) ≤ (fun _ : Fin 1 => (1:ℚ)) i) ∧
      (∀ k i, -(wEnv.eps i) ≤ wInit 0 k i ∧ wInit 0 k i ≤ wEnv.eps i) ∧
      boxOK (fun _ : Fin 1 => (1:ℚ)) (-1) 1 (fun _ => 0)
        (train_init_delta (fun _ => 0) (-1) 1 (fun _ => 1)) ∧
      boxOKBatch wEnv (initProjPGD wEnv (wInit 0)) := by
  have h := C1_box_invariant (fun _ : Fin 1 => (0:ℚ)) (fun _ => 1) (fun _ => 1)
    (-1) 1 (fun _ => 1) (fun _ _ => 1)
    (by intro i; norm_num) (by intro i; norm_num) (by intro i; norm_num)
    (N := 1) wEnv (wInit 0)
    (by intro i; simp [wEnv]) (by intro k i; simp [wEnv])
    (by intro k i; simp [wEnv, wInit])
  exact ⟨by intro i; norm_num, by intro k i; simp [wEnv, wInit],
    h.1, h.2.2.1⟩

/-! ### Restart bookkeeping -/

/-- Unfolding one restart off the restart loop. -/
lemma runRestarts_succ (E : PGDEnv N ι) (attack_iters n : ℕ)
    (inits : ℕ → Fin N → ι → ℚ) :
    runRestarts E attack_iters (n + 1) inits =
      restartStep E attack_iters (inits n) (runRestarts E attack_iters n inits) := by
  simp only [runRestarts, List.range_succ, List.foldl_append, List.foldl_cons,
    List.foldl_nil]

/-- C3: In `attack_pgd`, for every sample, the per-sample `max_loss` value
is non-decreasing across successive restarts within one attack call: after
each restart's update, the new `max_loss` is the elementwise maximum of
the previous `max_loss` and that restart's final per-sample loss. -/
theorem C3_restart_monotonicity (E : PGDEnv N ι) (attack_iters : ℕ)
    (d : Fin N → ι → ℚ) (s : AttackState N ι) (inits : ℕ → Fin N → ι → ℚ) :
    (∀ k, (restartStep E attack_iters d s).max_loss k =
        max (s.max_loss k) (restartFinalLoss E attack_iters d k)) ∧
      (∀ k, s.max_loss k ≤ (restartStep E attack_iters d s).max_loss k) ∧
      (∀ n k, (runRestarts E attack_iters n inits).max_loss k ≤
        (runRestarts E attack_iters (n + 1) inits).max_loss k) := by
  refine ⟨fun k => rfl, fun k => le_max_left _ _, fun n k => ?_⟩
  rw [runRestarts_succ]
  exact le_max_left _ _

/-- C4: At the end of each restart in `attack_pgd`, for every sample whose
final per-sample loss is at least the current `max_loss`, `max_delta` is
overwritten with that restart's delta and `max_loss` with that restart's
final loss (on a tie the most recent restart wins); for all other samples
both are unchanged; and the function returns `max_delta` after all
restarts. -/
theorem C4_worst_case_update (E : PGDEnv N ι) (attack_iters : ℕ)
    (d : Fin N → ι → ℚ) (s : AttackState N ι) :
    (∀ k, s.max_loss k ≤ restartFinalLoss E attack_iters d k →
        (restartStep E attack_iters d s).max_delta k =
          restartFinalDelta E attack_iters d k ∧
        (restartStep E attack_iters d s).max_loss k =
          restartFinalLoss E attack_iters d k) ∧
      (∀ k, ¬ s.max_loss k ≤ restartFinalLoss E attack_iters d k →
        (restartStep E attack_iters d s).max_delta k = s.max_delta k ∧
        (restartStep E attack_iters d s).max_loss k = s.max_loss k) ∧
      (∀ xdev restarts inits, attack_pgd E xdev xdev attack_iters restarts inits =
        Except.ok (runRestarts E attack_iters restarts inits).max_delta) := by
  refine ⟨fun k h => ⟨?_, ?_⟩, fun k h => ⟨?_, ?_⟩, fun xdev restarts inits => ?_⟩
  · simp only [restartStep]
    simp only [restartFinalLoss] at h
    rw [if_pos h]
  · simp only [restartStep]
    simp only [restartFinalLoss] at h
    exact max_eq_right h
  · simp only [restartStep]
    simp only [restartFinalLoss] at h
    rw [if_neg h]
  · simp only [restartStep]
    simp only [restartFinalLoss] at h
    exact max_eq_left (le_of_lt (lt_of_not_le h))
  · simp [attack_pgd]

/-- Witness for C4 at a concrete instance: with `max_loss = 0` the
tie-or-better branch fires (the final loss is 0), with `max_loss = 1` the
strictly-smaller branch leaves the state alone. -/
theorem C4_worst_case_update_witness :
    ((0 : ℚ) ≤ restartFinalLoss wEnv 0 (wInit 0) 0) ∧
      (restartStep wEnv 0 (wInit 0) ⟨fun _ => 0, fun _ _ => 0⟩).max_delta 0 =
        restartFinalDelta wEnv 0 (wInit 0) 0 ∧
      ¬ ((1 : ℚ) ≤ restartFinalLoss wEnv 0 (wInit 0) 0) ∧
      (restartStep wEnv 0 (wInit 0) ⟨fun _ => 1, fun _ _ => 5⟩).max_delta 0 =
        (fun _ : Fin 1 => (5 : ℚ)) := by
  refine ⟨by decide, ?_, by decide, ?_⟩
  · exact ((C4_worst_case_update wEnv 0 (wInit 0)
      ⟨fun _ => 0, fun _ _ => 0⟩).1 0 (by decide)).1
  · exact ((C4_worst_case_update wEnv 0 (wInit 0)
      ⟨fun _ => 1, fun _ _ => 5⟩).2.1 0 (by decide)).1

/-- C5: If the images tensor `x` and the labels tensor `y` passed to
`attack_pgd` reside on different compute devices, the call fails with the
device-mismatch error before any computation (the result is the bare error,
independent of every other argument, with no restart state in it); if they
reside on the same device, the check passes and the restarts run. -/
theorem C5_device_mismatch (E : PGDEnv N ι) (xdev ydev attack_iters restarts : ℕ)
    (inits : ℕ → Fin N → ι → ℚ) :
    (xdev ≠ ydev → attack_pgd E xdev ydev attack_iters restarts inits =
        Except.error AttackError.deviceMismatch) ∧
      (xdev = ydev → attack_pgd E xdev ydev attack_iters restarts inits =
        Except.ok (runRestarts E attack_iters restarts inits).max_delta) := by
  constructor
  · intro h
    simp [attack_pgd, h]
  · intro h
    simp [attack_pgd, h]

/-- Witness for C5: devices 0 and 1 mismatch and yield the error; devices
0 and 0 pass the check. -/
theorem C5_device_mismatch_witness :
    ((0 : ℕ) ≠ 1) ∧
      attack_pgd wEnv 0 1 0 0 wInit = Except.error AttackError.deviceMismatch ∧
      ((0 : ℕ) = 0) ∧
      attack_pgd wEnv 0 0 0 0 wInit =
        Except.ok (runRestarts wEnv 0 0 wInit).max_delta := by
  refine ⟨by decide, (C5_device_mismatch wEnv 0 1 0 0 wInit).1 (by decide),
    rfl, (C5_device_mismatch wEnv 0 0 0 0 wInit).2 rfl⟩

/-- C10: With `restarts = 0` the restart loop body never executes:
`attack_pgd` returns the all-zeros perturbation (`max_delta` as
initialized) and `max_loss` is never updated. -/
theorem C10_zero_restarts (E : PGDEnv N ι) (attack_iters : ℕ)
    (inits : ℕ → Fin N → ι → ℚ) (xdev : ℕ) :
    attack_pgd E xdev xdev attack_iters 0 inits = Except.ok (fun _ _ => 0) ∧
      (runRestarts E attack_iters 0 inits).max_loss = (fun _ => 0) ∧
      (runRestarts E attack_iters 0 inits).max_delta = (fun _ _ => 0) := by
  refine ⟨?_, rfl, rfl⟩
  simp [attack_pgd, runRestarts]

/-! ### Per-sample masking (C8) -/

/-- C8: Within each iteration of `attack_pgd`, only samples whose current
prediction equals their true label have their delta entries updated; delta
entries of inactive samples are left exactly unchanged that iteration
(frozen, not reset); and if no sample is active the restart's iteration
loop exits early.  The batch shape is preserved by construction: the
iteration maps `Fin N → ι → ℚ` to `Fin N → ι → ℚ`. -/
theorem C8_masked_update (E : PGDEnv N ι) (δ : Fin N → ι → ℚ) :
    ((∀ k, E.pred (perturbed E δ) k ≠ E.y k) →
        pgdIter E δ = none ∧ ∀ n, pgdLoop E (n + 1) δ = δ) ∧
      ((∃ k, E.pred (perturbed E δ) k = E.y k) →
        pgdIter E δ = some (pgdNext E δ)) ∧
      (∀ k, E.pred (perturbed E δ) k ≠ E.y k → pgdNext E δ k = δ k) ∧
      (∀ k, E.pred (perturbed E δ) k = E.y k →
        pgdNext E δ k = fun i => pgdUpdate E δ (E.gradL (perturbed E δ)) k i) := by
  refine ⟨fun h => ⟨?_, fun n => ?_⟩, fun h => ?_, fun k hk => ?_, fun k hk => ?_⟩
  · simp only [pgdIter, if_pos h]
  · have hiter : pgdIter E δ = none := by simp only [pgdIter, if_pos h]
    simp only [pgdLoop, hiter]
  · have : ¬ ∀ k, E.pred (perturbed E δ) k ≠ E.y k := by
      push_neg
      exact h
    simp only [pgdIter, if_neg this]
  · funext i
    simp only [pgdNext, if_neg hk]
  · funext i
    simp only [pgdNext, if_pos hk]

/-- Witness for C8: in `wEnvMiss` no sample is active and the iteration
breaks; in `wEnvMix` sample 1 is inactive and frozen while sample 0 is
active and the iteration proceeds. -/
theorem C8_masked_update_witness :
    (∀ k, wEnvMiss.pred (perturbed wEnvMiss (fun _ _ => 0)) k ≠ wEnvMiss.y k) ∧
      pgdIter wEnvMiss (fun _ _ => 0) = none ∧
      (wEnvMix.pred (perturbed wEnvMix (fun _ _ => 0)) 1 ≠ wEnvMix.y 1) ∧
      pgdNext wEnvMix (fun _ _ => 0) 1 = (fun _ _ => (0 : ℚ)) 1 ∧
      (wEnvMix.pred (perturbed wEnvMix (fun _ _ => 0)) 0 = wEnvMix.y 0) ∧
      pgdIter wEnvMix (fun _ _ => 0) = some (pgdNext wEnvMix (fun _ _ => 0)) := by
  refine ⟨by decide, ((C8_masked_update wEnvMiss (fun _ _ => 0)).1 (by decide)).1,
    by decide, (C8_masked_update wEnvMix (fun _ _ => 0)).2.2.1 1 (by decide),
    by decide, (C8_masked_update wEnvMix (fun _ _ => 0)).2.1 ⟨0, by decide⟩⟩

/-! ### Degenerate iteration count (C9) -/

/-- C9: With `attack_iters = 0` and `restarts = 1`, `attack_pgd` performs
no gradient update (`pgdLoop` with 0 iterations is the identity) and
returns exactly the initial random delta of that single restart, as it
stands after the initialization-time projection.  The hypothesis records
that per-sample cross-entropy values are nonnegative, which is what makes
the `all_loss >= max_loss` mask all-true against the zero-initialised
`max_loss`. -/
theorem C9_zero_attack_iters (E : PGDEnv N ι) (inits : ℕ → Fin N → ι → ℚ)
    (xdev : ℕ)
    (hloss : ∀ k, 0 ≤ E.lossPS (perturbed E (initProjPGD E (inits 0))) k) :
    restartFinalDelta E 0 (inits 0) = initProjPGD E (inits 0) ∧
      attack_pgd E xdev xdev 0 1 inits = Except.ok (initProjPGD E (inits 0)) := by
  refine ⟨rfl, ?_⟩
  have hrun : (runRestarts E 0 1 inits).max_delta = initProjPGD E (inits 0) := by
    funext k
    show (restartStep E 0 (inits 0) ⟨fun _ => 0, fun _ _ => 0⟩).max_delta k = _
    simp only [restartStep, restartFinalDelta, pgdLoop]
    rw [if_pos (hloss k)]
  simp [attack_pgd, hrun]

/-- Witness for C9: in `wEnv` the per-sample loss oracle is the constant
0, so the nonnegativity hypothesis holds, and the attack with zero
iterations and one restart returns the projected uniform draw. -/
theorem C9_zero_attack_iters_witness :
    (∀ k, 0 ≤ wEnv.lossPS (perturbed wEnv (initProjPGD wEnv (wInit 0))) k) ∧
      attack_pgd wEnv 0 0 0 1 wInit = Except.ok (initProjPGD wEnv (wInit 0)) := by
  exact ⟨by decide, (C9_zero_attack_iters wEnv wInit 0 (by decide)).2⟩

/-! ### Zero-budget idempotence (C7) -/

/-- torch's `clamp_(-eps, eps)` with `eps = 0` collapses every value to 0. -/
lemma tclamp_zero (v : ℚ) : tclamp v (-0) 0 = 0 := by
  simp only [tclamp, neg_zero]
  rw [min_eq_right (le_max_right v 0)]

/-- Projecting the zero perturbation into the pixel box of a valid pixel
leaves it zero. -/
lemma clamp_zero_box (xv cmin cmax : ℚ) (h1 : cmin ≤ xv) (h2 : xv ≤ cmax) :
    clamp 0 (cmin - xv) (cmax - xv) = 0 := by
  simp only [clamp]
  rw [min_eq_left (by linarith : (0:ℚ) ≤ cmax - xv)]
  exact max_eq_left (by linarith)

/-- With a zero budget the single-step attack returns the zero
perturbation. -/
lemma train_epoch_delta_zero (x eps eps_iter : ι → ℚ) (cmin cmax : ℚ)
    (δ0 : ι → ℚ) (gradO : (ι → ℚ) → ι → ℚ)
    (heps0 : ∀ i, eps i = 0) (hx : ∀ i, cmin ≤ x i ∧ x i ≤ cmax) :
    train_epoch_delta x eps eps_iter cmin cmax δ0 gradO = (fun _ => 0) := by
  funext i
  simp only [train_epoch_delta, heps0 i, tclamp_zero]
  exact clamp_zero_box (x i) cmin cmax (hx i).1 (hx i).2

/-- With a zero budget one PGD iteration maps the zero perturbation to the
zero perturbation (updated entries are clamped to 0, frozen entries stay 0). -/
lemma pgdNext_zero {κ : Type} (E : PGDEnv N κ)
    (hE0 : ∀ i, E.eps i = 0)
    (hEx : ∀ k i, E.clip_min ≤ E.x k i ∧ E.x k i ≤ E.clip_max) :
    pgdNext E (fun _ _ => 0) = (fun _ _ => 0) := by
  funext k i
  simp only [pgdNext]
  split
  · simp only [pgdUpdate, hE0 i, tclamp_zero, zero_add]
    exact clamp_zero_box (E.x k i) E.clip_min E.clip_max (hEx k i).1 (hEx k i).2
  · rfl

/-- With a zero budget the PGD iteration loop keeps the zero perturbation. -/
lemma pgdLoop_zero {κ : Type} (E : PGDEnv N κ)
    (hE0 : ∀ i, E.eps i = 0)
    (hEx : ∀ k i, E.clip_min ≤ E.x k i ∧ E.x k i ≤ E.clip_max) :
    ∀ n : ℕ, pgdLoop E n (fun _ _ => 0) = (fun _ _ => 0)
  | 0 => rfl
  | n + 1 => by
    simp only [pgdLoop]
    cases h : pgdIter E (fun _ _ => 0) with
    | none => rfl
    | some δ1 =>
      have hδ1 : δ1 = (fun _ _ => 0) := by
        unfold pgdIter at h
        split at h
        · exact absurd h (by simp)
        · cases h
          exact pgdNext_zero E hE0 hEx
      rw [hδ1]
      exact pgdLoop_zero E hE0 hEx n

/-- With a zero budget the projected init of every restart is zero. -/
lemma initProjPGD_zero {κ : Type} (E : PGDEnv N κ) (d : Fin N → κ → ℚ)
    (hE0 : ∀ i, E.eps i = 0)
    (hEx : ∀ k i, E.clip_min ≤ E.x k i ∧ E.x k i ≤ E.clip_max)
    (hd : ∀ k i, -(E.eps i) ≤ d k i ∧ d k i ≤ E.eps i) :
    initProjPGD E d = (fun _ _ => 0) := by
  funext k i
  have hd0 : d k i = 0 := by
    have h1 := (hd k i).1
    have h2 := (hd k i).2
    rw [hE0 i] at h1 h2
    rw [neg_zero] at h1
    exact le_antisymm h2 h1
  simp only [initProjPGD, hd0]
  exact clamp_zero_box (E.x k i) E.clip_min E.clip_max (hEx k i).1 (hEx k i).2

/-- With a zero budget the `max_delta` bookkeeping stays zero through the
whole restart fold. -/
lemma runRestarts_zero {κ : Type} (E : PGDEnv N κ)
    (hE0 : ∀ i, E.eps i = 0)
    (hEx : ∀ k i, E.clip_min ≤ E.x k i ∧ E.x k i ≤ E.clip_max)
    (inits : ℕ → Fin N → κ → ℚ)
    (hinits : ∀ r k i, -(E.eps i) ≤ inits r k i ∧ inits r k i ≤ E.eps i)
    (attack_iters : ℕ) :
    ∀ restarts : ℕ,
      (runRestarts E attack_iters restarts inits).max_delta = (fun _ _ => 0)
  | 0 => rfl
  | n + 1 => by
    rw [runRestarts_succ]
    have ih := runRestarts_zero E hE0 hEx inits hinits attack_iters n
    have hfin : restartFinalDelta E attack_iters (inits n) = (fun _ _ => 0) := by
      unfold restartFinalDelta
      rw [initProjPGD_zero E (inits n) hE0 hEx (hinits n)]
      exact pgdLoop_zero E hE0 hEx attack_iters
    funext k
    simp only [restartStep, hfin, ih]
    split <;> rfl

/-- C7: With `eps = 0` (and any step size), both the single-step attack in
`train_epoch` and `attack_pgd` return a perturbation that is identically
zero for every input batch, and the adversarial loss computed on
`x + delta` equals the clean loss on `x` exactly. -/
theorem C7_zero_budget
    (x eps eps_iter : ι → ℚ) (cmin cmax : ℚ) (δ0 : ι → ℚ)
    (gradO : (ι → ℚ) → ι → ℚ)
    (heps0 : ∀ i, eps i = 0) (hx : ∀ i, cmin ≤ x i ∧ x i ≤ cmax)
    {κ : Type} (E : PGDEnv N κ)
    (hE0 : ∀ i, E.eps i = 0)
    (hEx : ∀ k i, E.clip_min ≤ E.x k i ∧ E.x k i ≤ E.clip_max)
    (inits : ℕ → Fin N → κ → ℚ)
    (hinits : ∀ r k i, -(E.eps i) ≤ inits r k i ∧ inits r k i ≤ E.eps i)
    (attack_iters restarts xdev : ℕ) :
    train_epoch_delta x eps eps_iter cmin cmax δ0 gradO = (fun _ => 0) ∧
      (∀ loss : (ι → ℚ) → ℚ,
        loss (fun i => x i + train_epoch_delta x eps eps_iter cmin cmax δ0 gradO i) =
          loss x) ∧
      attack_pgd E xdev xdev attack_iters restarts inits =
        Except.ok (fun _ _ => 0) ∧
      E.lossPS (perturbed E (fun _ _ => 0)) = E.lossPS E.x := by
  have hts := train_epoch_delta_zero x eps eps_iter cmin cmax δ0 gradO heps0 hx
  refine ⟨hts, fun loss => ?_, ?_, ?_⟩
  · rw [hts]
    congr 1
    funext i
    exact add_zero (x i)
  · have := runRestarts_zero E hE0 hEx inits hinits attack_iters restarts
    simp [attack_pgd, this]
  · have hp : perturbed E (fun _ _ => 0) = E.x := by
      funext k i
      exact add_zero (E.x k i)
    rw [hp]

/-- Witness for C7 at a concrete zero-budget instance. -/
theorem C7_zero_budget_witness :
    (∀ i : Fin 1, (fun _ : Fin 1 => (0:ℚ)) i = 0) ∧
      (∀ i, wEnv0.eps i = 0) ∧
      (∀ r k i, -(wEnv0.eps i) ≤ wInit0 r k i ∧ wInit0 r k i ≤ wEnv0.eps i) ∧
      train_epoch_delta (fun _ : Fin 1 => (0:ℚ)) (fun _ => 0) (fun _ => 1) (-1) 1
        (fun _ => 0) (fun _ _ => 1) = (fun _ => 0) ∧
      attack_pgd wEnv0 0 0 3 2 wInit0 = Except.ok (fun _ _ => 0) := by
  have h := C7_zero_budget (fun _ : Fin 1 => (0:ℚ)) (fun _ => 0) (fun _ => 1)
    (-1) 1 (fun _ => 0) (fun _ _ => 1)
    (by intro i; rfl) (by intro i; norm_num)
    (N := 1) wEnv0
    (by intro i; rfl) (by intro k i; simp [wEnv0, wEnv])
    wInit0 (by intro r k i; simp [wEnv0, wEnv, wInit0])
    3 2 0
  exact ⟨by intro i; rfl, by intro i; rfl,
    by intro r k i; simp [wEnv0, wEnv, wInit0], h.1, h.2.2.1⟩

/-! ### Separation of the two differentiation queries (C2) -/

/-- Counterexample to C2 as stated: in `attack_pgd` the input gradient is
obtained with `loss.backward()` (line 111), which accumulates into the
model's parameter-gradient buffers.  With one parameter whose loss
gradient is 1 and a zeroed buffer, one PGD iteration leaves the buffer at
1, not at its previous value 0 — the input-gradient query of the
multi-step attack does not leave parameter gradients unchanged. -/
theorem C2_counterexample :
    (pgd_iter_grad_flow (P := Fin 1) (ι := Fin 1)
        ⟨fun _ => 1, fun _ => 0⟩ ⟨fun _ => 0, fun _ => 0⟩).1.paramGrad 0 = 1 ∧
      ((1 : ℚ) ≠ 0) := by
  constructor
  · simp [pgd_iter_grad_flow, backward, delta_grad_zero]
  · norm_num

/-- C2 amended: In `train_epoch` the input-gradient query
(`torch.autograd.grad(loss1, delta)`) leaves every gradient buffer
unchanged, and — because `optimizer.zero_grad()` runs first — the
parameter gradients used for the weight update equal the scaled gradient
of `loss2` alone.  In `attack_pgd`, by contrast, the input gradient is
read off `delta.grad` after `loss.backward()`, which also accumulates the
loss gradient into the model's parameter-gradient buffers (only
`delta.grad` is reset afterwards). -/
theorem C2_grad_separation {Q κ : Type} (c : ℚ) (L1 L2 L : LossNode Q κ)
    (s0 s : GradState Q κ) :
    autograd_grad L1 s0 = (L1.dDelta, s0) ∧
      (train_batch_grad_flow c L1 L2 s0).1.paramGrad =
        (fun p => c * L2.dParam p) ∧
      (pgd_iter_grad_flow L s).1.paramGrad =
        (fun p => s.paramGrad p + L.dParam p) := by
  refine ⟨rfl, ?_, rfl⟩
  funext p
  simp [train_batch_grad_flow, zero_grad, autograd_grad, backward, scaleNode]

/-! ### Evaluation of the configuration expressions (C6) -/

/-- Counterexample to C6 as stated: with 2 epochs and 1 batch per loader,
the epsilon expression is evaluated 4 times (once per `train_epoch` call
at line 41 and once per `eval_epoch` call at line 130), not exactly once
at configuration-load time; and an evaluation (event index 3, the second
epoch's) happens after a batch has already been processed (event index 2). -/
theorem C6_counterexample :
    countEvalOf "8/255" (run_events "8/255" "10/255" "2/255" 2 1 1) = 4 ∧
      ((4 : ℕ) ≠ 1) ∧
      (run_events "8/255" "10/255" "2/255" 2 1 1)[2]? =
        some RunEvent.processBatch ∧
      (run_events "8/255" "10/255" "2/255" 2 1 1)[3]? =
        some (RunEvent.exprEval "8/255") := by
  refine ⟨by decide, by decide, by decide, by decide⟩

/-- `processBatch` events contribute nothing to the evaluation count. -/
lemma countEvalOf_replicate (s : String) (n : ℕ) :
    countEvalOf s (List.replicate n RunEvent.processBatch) = 0 := by
  induction n with
  | zero => rfl
  | succ n ih =>
    simp only [countEvalOf, List.replicate_succ, List.countP_cons] at ih ⊢
    simp [ih]

/-- The evaluation count splits over concatenation. -/
lemma countEvalOf_append (s : String) (l1 l2 : List RunEvent) :
    countEvalOf s (l1 ++ l2) = countEvalOf s l1 + countEvalOf s l2 :=
  List.countP_append _ _ _

/-- One `train_epoch` call evaluates the epsilon expression exactly once. -/
lemma countEvalOf_train_epoch (epsS epsIterS : String) (h : epsIterS ≠ epsS)
    (nB : ℕ) :
    countEvalOf epsS (train_epoch_events epsS epsIterS nB) = 1 := by
  have hr := countEvalOf_replicate epsS nB
  simp only [countEvalOf, train_epoch_events, List.countP_append,
    List.countP_cons, List.countP_nil] at hr ⊢
  simp [hr, h]

/-- One `eval_epoch` call evaluates the epsilon expression exactly once. -/
lemma countEvalOf_eval_epoch (epsS pgdS : String) (h : pgdS ≠ epsS) (nB : ℕ) :
    countEvalOf epsS (eval_epoch_events epsS pgdS nB) = 1 := by
  have hr := countEvalOf_replicate epsS nB
  simp only [countEvalOf, eval_epoch_events, List.countP_append,
    List.countP_cons, List.countP_nil] at hr ⊢
  simp [hr, h]

/-- The epoch loop evaluates the epsilon expression once per epoch. -/
lemma countEvalOf_epochs (epsS epsIterS : String) (h : epsIterS ≠ epsS)
    (nTr : ℕ) : ∀ n, countEvalOf epsS (epochs_events epsS epsIterS nTr n) = n
  | 0 => rfl
  | n + 1 => by
    simp only [epochs_events, countEvalOf_append,
      countEvalOf_train_epoch epsS epsIterS h nTr,
      countEvalOf_epochs epsS epsIterS h nTr n]
    omega

/-- C6 amended: the nominal epsilon/step expressions are passed to the
Python expression evaluator at the start of every `train_epoch` and
`eval_epoch` call — `nEpochs + 2` times per run, not exactly once at
configuration-load time.  Within each call both evaluations happen before
any batch of that call is processed, and for `nEpochs ≥ 1` the very first
event of the run is the epsilon evaluation of the first `train_epoch`, so
a malformed expression raises there, before any batch processing — but as
a runtime evaluation failure of an arbitrary expression, not as a
dedicated configuration error at load time. -/
theorem C6_eval_per_epoch (epsS epsIterS pgdS : String)
    (h1 : epsIterS ≠ epsS) (h2 : pgdS ≠ epsS)
    (nEpochs nTrainB nTestB : ℕ) :
    countEvalOf epsS (run_events epsS epsIterS pgdS nEpochs nTrainB nTestB) =
        nEpochs + 2 ∧
      (∀ j, (train_epoch_events epsS epsIterS nTrainB)[j]? =
          some RunEvent.processBatch → 2 ≤ j) ∧
      (train_epoch_events epsS epsIterS nTrainB)[0]? =
        some (RunEvent.exprEval epsS) ∧
      (∀ nE, (run_events epsS epsIterS pgdS (nE + 1) nTrainB nTestB).head? =
        some (RunEvent.exprEval epsS)) := by
  refine ⟨?_, fun j hj => ?_, ?_, fun nE => ?_⟩
  · simp only [run_events, countEvalOf_append,
      countEvalOf_epochs epsS epsIterS h1 nTrainB nEpochs,
      countEvalOf_eval_epoch epsS pgdS h2 nTestB]
  · match j with
    | 0 => simp [train_epoch_events] at hj
    | 1 => simp [train_epoch_events] at hj
    | j + 2 => omega
  · simp [train_epoch_events]
  · simp [run_events, epochs_events, train_epoch_events, List.cons_append]

/-- Witness for C6 amended, at concrete distinct expression strings. -/
theorem C6_eval_per_epoch_witness :
    ("10/255" ≠ "8/255") ∧ ("2/255" ≠ "8/255") ∧
      countEvalOf "8/255" (run_events "8/255" "10/255" "2/255" 3 2 2) = 5 := by
  refine ⟨by decide, by decide, ?_⟩
  exact (C6_eval_per_epoch "8/255" "10/255" "2/255" (by decide) (by decide)
    3 2 2).1

end FastAT
